import Mathlib

/-!
Verification development for the goimagefinder repository.

The definitions below are a shallow embedding of the Go source:
pure Go functions become Lean functions over `List Char` (Go strings),
`Nat`/`Int` (Go integers) and `Rat` (Go float64 arithmetic, modelled
exactly over the rationals), fallible Go functions return `Except`,
and the concurrent scan pipeline becomes explicit state passing over a
schedule oracle.  External collaborators (gocv primitives, the SQLite
store) are modelled at their interface boundary, as the spec directs.
-/

namespace ImageFinder

/-! ## Go string and path helpers

Embedding of the parts of Go's strings and path/filepath packages used
by the source (strings.ToLower, strings.TrimSuffix, strings.HasPrefix,
filepath.Ext, filepath.Base).  Strings are `List Char`.
-/

/-- Embeds Go unicode lower-casing restricted to ASCII letters, which is
all the source ever feeds it (file-name extensions). -/
def toLowerChar (c : Char) : Char :=
  if 'A' ≤ c ∧ c ≤ 'Z' then Char.ofNat (c.toNat + 32) else c

/-- Embeds strings.ToLower. -/
def strToLower (s : List Char) : List Char := s.map toLowerChar

/-- Helper for `filepathExt`: scans the reversed path, accumulating the
extension; stops with an empty result at a path separator. -/
def filepathExtAux : List Char → List Char → List Char
  | [], _ => []
  | c :: rest, acc =>
    if c = '/' then []
    else if c = '.' then '.' :: acc
    else filepathExtAux rest (c :: acc)

/-- Embeds Go filepath.Ext: the suffix beginning at the final dot in the
final element of the path, empty if there is no dot. -/
def filepathExt (p : List Char) : List Char := filepathExtAux p.reverse []

/-- Embeds the trailing-separator stripping step of Go filepath.Base. -/
def dropTrailingSeps (p : List Char) : List Char :=
  (p.reverse.dropWhile (fun c => c = '/')).reverse

/-- Embeds the final-element extraction step of Go filepath.Base. -/
def afterLastSep (p : List Char) : List Char :=
  (p.reverse.takeWhile (fun c => c ≠ '/')).reverse

/-- Embeds Go filepath.Base. -/
def filepathBase (p : List Char) : List Char :=
  if p = [] then ['.']
  else
    let q := dropTrailingSeps p
    if q = [] then ['/'] else afterLastSep q

/-- Embeds Go strings.TrimSuffix. -/
def trimSuffix (s suffix : List Char) : List Char :=
  if suffix.isSuffixOf s then s.take (s.length - suffix.length) else s

/-- Embeds getBaseFilename (search engine): the file name without the
directory and without the extension. -/
def getBaseFilename (path : List Char) : List Char :=
  let filename := filepathBase path
  trimSuffix filename (filepathExt filename)

/-- Embeds extractDigits: keeps exactly the characters between
digit zero and digit nine. -/
def extractDigits (s : List Char) : List Char :=
  s.filter (fun ch => decide ('0' ≤ ch) && decide (ch ≤ '9'))

/-- Embeds areFilenamesRelated: equal base names, one base name a
prefix of the other, or equal non-empty digit strings.  The Go early
returns become boolean disjunction. -/
def areFilenamesRelated (path1 path2 : List Char) : Bool :=
  let base1 := getBaseFilename path1
  let base2 := getBaseFilename path2
  (base1 == base2) ||
    (base1.isPrefixOf base2 || base2.isPrefixOf base1) ||
    (let digits1 := extractDigits base1
     let digits2 := extractDigits base2
     !(digits1 == []) && !(digits2 == []) && (digits1 == digits2))

/-- Embeds Go strings.Contains: the second string occurs as a
contiguous substring of the first. -/
def strContains (s sub : List Char) : Bool :=
  (List.range (s.length + 1)).any (fun i => sub.isPrefixOf (s.drop i))

/-- States the filename heuristic the way the spec words it: related
when one base name contains the other as a substring, or the digit runs
are equal and non-empty.  Kept separate from `areFilenamesRelated`,
which embeds the source, so the two can be compared. -/
def areFilenamesRelatedSpec (path1 path2 : List Char) : Bool :=
  let base1 := getBaseFilename path1
  let base2 := getBaseFilename path2
  (strContains base1 base2 || strContains base2 base1) ||
    (let digits1 := extractDigits base1
     let digits2 := extractDigits base2
     !(digits1 == []) && !(digits2 == []) && (digits1 == digits2))

end ImageFinder

namespace ImageFinder

/-! ## Format classification

Embedding of the extension-based format predicates of the search engine
(part_010 and image_processing.go) and of DefaultImageLoader.
-/

/-- Lists the RAW extensions the source recognises. -/
def rawFormatExts : List (List Char) :=
  [".dng".data, ".raf".data, ".arw".data, ".nef".data,
   ".cr2".data, ".cr3".data, ".nrw".data, ".srf".data]

/-- Embeds isRawFormat: lower-cased extension among the RAW list. -/
def isRawFormat (path : List Char) : Bool :=
  let ext := strToLower (filepathExt path)
  rawFormatExts.any (fun f => ext == f)

/-- Embeds isJpgFormat. -/
def isJpgFormat (path : List Char) : Bool :=
  let ext := strToLower (filepathExt path)
  ext == ".jpg".data || ext == ".jpeg".data

/-- Embeds the extension test of DefaultImageLoader.CanLoad, the source's
notion of a standard-format file (the os.Stat existence check sits outside
the embedding). -/
def isStandardFormat (path : List Char) : Bool :=
  let ext := strToLower (filepathExt path)
  ext == ".jpg".data || ext == ".jpeg".data || ext == ".png".data ||
    ext == ".tiff".data || ext == ".tif".data

/-! ## Similarity search engine: candidate prefilter and verification

Embedding of the per-record decision logic of FindSimilarImages
(part_010, the two-stage hash-prefilter plus SSIM-verification variant).
-/

/-- Embeds CalculateHammingDistance: count of differing positions over
the shorter of the two hash strings. -/
def CalculateHammingDistance (hash1 hash2 : List Char) : Nat :=
  ((hash1.zip hash2).filter (fun p => !(p.1 == p.2))).length

/-- Holds the pair of Hamming-distance bounds the prefilter uses. -/
structure HashBounds where
  avgThreshold : Nat
  pHashThreshold : Nat
deriving DecidableEq

/-- Embeds the adaptive bound selection of FindSimilarImages: base
bounds chosen by format pair, then the filename override, which the
source applies only when the query is JPEG and the candidate is RAW. -/
def selectHashBounds (queryPath candPath : List Char) : HashBounds :=
  let isRawQuery := isRawFormat queryPath
  let isJpgQuery := isJpgFormat queryPath
  let isRawCandidate := isRawFormat candPath
  let base : HashBounds :=
    if (isRawQuery && isJpgFormat candPath) || (isJpgQuery && isRawCandidate) then
      ⟨20, 25⟩
    else if isRawQuery || isRawCandidate then ⟨15, 18⟩
    else ⟨10, 12⟩
  if isJpgQuery && isRawCandidate && areFilenamesRelated queryPath candPath then
    ⟨64, 64⟩
  else base

/-- Embeds the prefilter decision: a record becomes a candidate when
either hash distance is within its bound. -/
def passesPrefilter (queryPath candPath : List Char) (avgDist pDist : Nat) : Bool :=
  let b := selectHashBounds queryPath candPath
  decide (avgDist ≤ b.avgThreshold) || decide (pDist ≤ b.pHashThreshold)

/-- Embeds the whole per-record candidate decision of FindSimilarImages,
starting from the stored hash strings. -/
def candidateProceeds (queryPath candPath qAvgHash qPHash dbAvgHash dbPHash : List Char) : Bool :=
  passesPrefilter queryPath candPath
    (CalculateHammingDistance qAvgHash dbAvgHash)
    (CalculateHammingDistance qPHash dbPHash)

/-- Embeds the SSIM-threshold adjustment in the verification goroutine of
FindSimilarImages: the caller threshold is multiplied by 0.8 exactly for
RAW-query/JPEG-candidate or JPEG-query/RAW-candidate pairs.  Go float64
arithmetic is modelled exactly over the rationals, so 0.8 is 4/5. -/
def effectiveThreshold (threshold : Rat) (queryPath candPath : List Char) : Rat :=
  if (isRawFormat queryPath && isJpgFormat candPath) ||
      (isJpgFormat queryPath && isRawFormat candPath) then
    threshold * (4 / 5)
  else threshold

/-- Records what the verification goroutine observes about a candidate
file: whether os.Stat succeeds, whether the image loads, and the
pixel-similarity score the comparison produces. -/
structure VerifyEnv where
  statOk : Bool
  loadOk : Bool
  ssimScore : Rat

/-- Embeds the verification goroutine body: missing or unloadable files
are skipped, otherwise the candidate is accepted exactly when its score
reaches the adjusted threshold. -/
def verifyCandidate (threshold : Rat) (queryPath candPath : List Char) (env : VerifyEnv) :
    Option Rat :=
  if !env.statOk then none
  else if !env.loadOk then none
  else if effectiveThreshold threshold queryPath candPath ≤ env.ssimScore then
    some env.ssimScore
  else none

end ImageFinder

namespace ImageFinder

/-! ## Fingerprint engine

Embedding of the hashing code.  A decoded image is a matrix of 8-bit
intensities; Go float64 arithmetic on the derived means and medians is
modelled exactly over the rationals.
-/

/-- Models a gocv.Mat: dimensions, channel count and 8-bit pixels. -/
structure Mat where
  rows : Nat
  cols : Nat
  channels : Nat
  pixel : Nat → Nat → Nat

/-- Embeds gocv Mat.Empty: no elements. -/
def matEmpty (m : Mat) : Bool := decide (m.rows = 0) || decide (m.cols = 0)

/-- Modelled from the spec: gocv.Resize is an external decode-layer
primitive (spec section 6); the embedding keeps its contract that the
output has exactly the requested width and height, sampling pixels from
the input by nearest neighbour. -/
def gocvResize (img : Mat) (w h : Nat) : Mat :=
  { rows := h, cols := w, channels := img.channels,
    pixel := fun y x => img.pixel (y * img.rows / h) (x * img.cols / w) }

/-- Modelled from the spec: gocv.CvtColor BGR→gray is external; the
embedding keeps dimensions and collapses to a single channel. -/
def cvtColorGray (img : Mat) : Mat := { img with channels := 1 }

/-- Models a float-valued gocv.Mat (CV32F) with exact rational entries. -/
structure FMat where
  rows : Nat
  cols : Nat
  entry : Nat → Nat → Rat

/-- Embeds Mat.ConvertTo CV32F. -/
def matToFloat (m : Mat) : FMat :=
  ⟨m.rows, m.cols, fun y x => (m.pixel y x : Rat)⟩

/-- Modelled from the spec: gocv.DCT is an external frequency-transform
primitive whose output has the input's dimensions, which is all the
hash-shape claims depend on. -/
def gocvDCT (m : FMat) : FMat := m

/-- Embeds Mat.Region with a rectangle anchored at the origin. -/
def fmatRegion (m : FMat) (w h : Nat) : FMat := ⟨h, w, m.entry⟩

/-- Collects the entries of a grid row-major, the order every loop in the
hashing code uses. -/
def gridValues {α : Type} (rows cols : Nat) (f : Nat → Nat → α) : List α :=
  ((List.range rows).map (fun y => (List.range cols).map (fun x => f y x))).flatten

/-- Embeds the insertion step used to model Go's ascending sort. -/
def insertRat (x : Rat) : List Rat → List Rat
  | [] => [x]
  | y :: ys => if x ≤ y then x :: y :: ys else y :: insertRat x ys

/-- Embeds Go sort.Slice with an ascending comparator on rationals. -/
def sortRats : List Rat → List Rat
  | [] => []
  | x :: xs => insertRat x (sortRats xs)

/-- Embeds calculateMedian (hash_utils.go): sort ascending, take the
middle element, averaging the two middle elements for even lengths,
zero for an empty list. -/
def calculateMedian (values : List Rat) : Rat :=
  let sorted := sortRats values
  if sorted.length = 0 then 0
  else if sorted.length % 2 = 0 then
    (sorted.getD (sorted.length / 2 - 1) 0 + sorted.getD (sorted.length / 2) 0) / 2
  else sorted.getD (sorted.length / 2) 0

/-- Embeds the shift-and-or byte accumulation of the hashing loops:
bits enter most-significant first. -/
def bitsToByte (bs : List Bool) : Nat :=
  bs.foldl (fun acc b => acc * 2 + (if b then 1 else 0)) 0

/-- Embeds the byte-packing loop of hash_utils.go: a byte per eight bits,
a final partial byte left-shifted to pad with zeros on the right. -/
def packBits : List Bool → List Nat
  | [] => []
  | b0 :: b1 :: b2 :: b3 :: b4 :: b5 :: b6 :: b7 :: rest =>
    bitsToByte [b0, b1, b2, b3, b4, b5, b6, b7] :: packBits rest
  | bs => [bitsToByte bs * 2 ^ (8 - bs.length)]

/-- Embeds the hexadecimal digit characters fmt uses for %x. -/
def hexDigitChar (n : Nat) : Char :=
  if n < 10 then Char.ofNat ('0'.toNat + n) else Char.ofNat ('a'.toNat + (n - 10))

/-- Embeds the %02x formatting of one byte. -/
def byteToHex (b : Nat) : List Char :=
  [hexDigitChar (b / 16 % 16), hexDigitChar (b % 16)]

/-- Embeds the hex-string accumulation over all packed bytes. -/
def bytesToHex : List Nat → List Char
  | [] => []
  | b :: bs => byteToHex b ++ bytesToHex bs

/-- Lists the sixteen characters %x can emit. -/
def hexAlphabet : List Char := "0123456789abcdef".data

/-- Embeds ComputeAverageHash from hash_utils.go: empty images fail;
otherwise resize to 8×8, gray, mean-threshold one bit per cell, pack the
row-major bits into bytes and emit them as hex. -/
def hashUtilsAverageHash (img : Mat) : Except (List Char) (List Char) :=
  if matEmpty img then .error "cannot compute hash for empty image".data
  else
    let resized := gocvResize img 8 8
    let gray := if img.channels ≠ 1 then cvtColorGray resized else resized
    let pixels := gridValues gray.rows gray.cols gray.pixel
    let total : Nat := pixels.foldl (fun a p => a + p) 0
    let count := pixels.length
    let mean : Rat := if 0 < count then (total : Rat) / (count : Rat) else 0
    let bits := pixels.map (fun (p : Nat) => decide (mean ≤ (p : Rat)))
    .ok (bytesToHex (packBits bits))

/-- Embeds ComputePerceptualHash from hash_utils.go: empty images fail;
otherwise resize to 32×32, gray, DCT, 8×8 low-frequency block,
median-threshold one bit per coefficient, pack and emit as hex. -/
def hashUtilsPerceptualHash (img : Mat) : Except (List Char) (List Char) :=
  if matEmpty img then .error "cannot compute hash for empty image".data
  else
    let resized := gocvResize img 32 32
    let gray := if img.channels ≠ 1 then cvtColorGray resized else resized
    let dct := gocvDCT (matToFloat gray)
    let lowFreq := fmatRegion dct 8 8
    let values := gridValues lowFreq.rows lowFreq.cols lowFreq.entry
    let median := calculateMedian values
    let bits := values.map (fun v => decide (median ≤ v))
    .ok (bytesToHex (packBits bits))

/-- Embeds ComputeAverageHash from image_processing.go: the same empty
check and mean threshold, but the hash is emitted directly as the
characters one and zero, one per cell, with no byte packing. -/
def imageProcessingAverageHash (img : Mat) : Except (List Char) (List Char) :=
  if matEmpty img then .error "cannot compute hash for empty image".data
  else
    let resized := gocvResize img 8 8
    let gray := if img.channels ≠ 1 then cvtColorGray resized else resized
    let pixels := gridValues gray.rows gray.cols gray.pixel
    let total : Nat := pixels.foldl (fun a p => a + p) 0
    let count := pixels.length
    let mean : Rat := if 0 < count then (total : Rat) / (count : Rat) else 0
    .ok (pixels.map (fun (p : Nat) => if mean ≤ (p : Rat) then '1' else '0'))

/-- Embeds ComputeSSIM (part_010): score zero for empty inputs, otherwise
resize the second image to the first's dimensions and return one minus
the mean absolute pixel difference over 255, with the source's guards on
an empty difference and a mean above 255.  The 8-bit conversions are
identities here since pixels are already 8-bit naturals. -/
def ComputeSSIM (img1 img2 : Mat) : Rat :=
  if matEmpty img1 || matEmpty img2 || decide (img1.rows = 0) || decide (img1.cols = 0) ||
      decide (img2.rows = 0) || decide (img2.cols = 0) then 0
  else
    let b := gocvResize img2 img1.cols img1.rows
    let diffs := gridValues img1.rows img1.cols
      (fun y x => ((img1.pixel y x : Int) - (b.pixel y x : Int)).natAbs)
    if diffs.length = 0 then 0
    else
      let meanDiff : Rat := ((diffs.foldl (fun s d => s + d) 0 : Nat) : Rat) / (diffs.length : Rat)
      if (255 : Rat) < meanDiff then 0 else 1 - meanDiff / 255

end ImageFinder

namespace ImageFinder

/-! ## Persistent store and scan pipeline

Embedding of the database layer (part_010, package database) and of the
per-file scan logic (scanner/dbhelper.go, scanner/scanner.go).  The
SQLite table is a list of records keyed by path and source prefix;
RFC3339 timestamps round-trip losslessly through the scanner, so stored
modification times are Ints and the time parse always succeeds on
values the scanner itself wrote.
-/

/-- Models one row of the images table, the columns StoreImageInfo
writes.  The field srcPfx carries the source-prefix column. -/
structure ImageRecord where
  path : List Char
  srcPfx : List Char
  format : List Char
  width : Nat
  height : Nat
  createdAt : Int
  modifiedAt : Int
  size : Int
  averageHash : List Char
  perceptualHash : List Char
deriving DecidableEq

/-- Models the images table. -/
abbrev ImageDB : Type := List ImageRecord

/-- Embeds the UNIQUE(path, source_prefix) key lookup. -/
def dbFind (db : ImageDB) (path pfx : List Char) : Option ImageRecord :=
  db.find? (fun r => r.path == path && r.srcPfx == pfx)

/-- Embeds StoreImageInfo: INSERT OR REPLACE under force-rewrite,
INSERT OR IGNORE otherwise; created_at receives the call time. -/
def StoreImageInfo (db : ImageDB) (info : ImageRecord) (forceRewrite : Bool) (now : Int) :
    ImageDB :=
  let fresh := { info with createdAt := now }
  if forceRewrite then
    if (dbFind db info.path info.srcPfx).isSome then
      db.map (fun r => if r.path == info.path && r.srcPfx == info.srcPfx then fresh else r)
    else db ++ [fresh]
  else
    if (dbFind db info.path info.srcPfx).isSome then db else db ++ [fresh]

/-- Models the outcome of one ScanTask, the Go ProcessImageResult. -/
structure ProcessImageResult where
  path : List Char
  success : Bool
  errorMsg : Option (List Char)
  isRaw : Bool := false
  isTif : Bool := false
deriving DecidableEq

/-- Embeds checkAndSkipIfUnchanged (scanner/dbhelper.go): no stored
record means continue processing; with a stored record, a failed stat is
a failure result, and a modification time not after the stored one is a
successful skip. -/
def checkAndSkipIfUnchanged (db : ImageDB) (path pfx : List Char)
    (stat : Except Unit Int) : Option ProcessImageResult :=
  match dbFind db path pfx with
  | none => none
  | some r =>
    match stat with
    | .error _ => some { path := path, success := false, errorMsg := some "cannot stat file".data }
    | .ok mtime =>
      if decide (mtime ≤ r.modifiedAt) then
        some { path := path, success := true, errorMsg := none }
      else none

/-- Models the file metadata os.Stat yields: modification time and size. -/
structure FileStat where
  mtime : Int
  size : Int

/-- Models the scan options processAndStoreImage consults. -/
structure ScanOptions where
  forceRewrite : Bool
  srcPfx : List Char

/-- Embeds processAndStoreImage (scanner/scanner.go): optional skip
check, stat, decode, empty check, both hashes, store.  The decode result
stands for imgProcessor.ProcessImage; the third component reports
whether the decode path was entered, distinguishing a skip from a
reprocess.  The format string stored is GetFileFormat's output, passed
through by the caller-side classification. -/
def processAndStoreImage (db : ImageDB) (path : List Char) (options : ScanOptions)
    (stat : Except Unit FileStat) (decodeRes : Except Unit Mat)
    (fileFormat : List Char) (now : Int) :
    ProcessImageResult × ImageDB × Bool :=
  let skip : Option ProcessImageResult :=
    if options.forceRewrite then none
    else checkAndSkipIfUnchanged db path options.srcPfx (stat.map (fun st => st.mtime))
  match skip with
  | some r => (r, db, false)
  | none =>
    match stat with
    | .error _ =>
      ({ path := path, success := false, errorMsg := some "cannot stat file".data }, db, false)
    | .ok st =>
      match decodeRes with
      | .error _ =>
        ({ path := path, success := false, errorMsg := some "failed to load image".data },
          db, true)
      | .ok img =>
        if matEmpty img then
          ({ path := path, success := false,
             errorMsg := some "image is empty after loading".data }, db, true)
        else
          match hashUtilsAverageHash img with
          | .error e =>
            ({ path := path, success := false, errorMsg := some e }, db, true)
          | .ok avgHash =>
            match hashUtilsPerceptualHash img with
            | .error e =>
              ({ path := path, success := false, errorMsg := some e }, db, true)
            | .ok pHash =>
              let info : ImageRecord :=
                { path := path, srcPfx := options.srcPfx, format := fileFormat,
                  width := img.cols, height := img.rows, createdAt := 0,
                  modifiedAt := st.mtime, size := st.size,
                  averageHash := avgHash, perceptualHash := pHash }
              ({ path := path, success := true, errorMsg := none },
                StoreImageInfo db info options.forceRewrite now, true)

end ImageFinder

namespace ImageFinder

/-! ## Scan pipeline concurrency: task boundary and result delivery

Embedding of the worker goroutine of walkAndProcessFiles and the result
forwarder.  The scheduler-dependent outcomes (which retry attempts
succeed, whether processing faults) are inputs; the code's reaction to
them is the embedded logic.
-/

/-- Models how one worker's processing run ends: a computed result, or a
runtime fault (Go panic) raised somewhere inside the processing. -/
inductive TaskOutcome where
  | normal (r : ProcessImageResult)
  | fault (msg : List Char)

/-- Embeds the recover block around processAndStoreImage in
walkAndProcessFiles: a fault becomes a failed result for the file with
the panic message recorded, and a normal result gets its format flags
stamped, exactly as the worker does after processing. -/
def runTaskBoundary (path : List Char) (isRaw isTif : Bool) (outcome : TaskOutcome) :
    ProcessImageResult :=
  match outcome with
  | .normal r => { r with isRaw := isRaw, isTif := isTif }
  | .fault m =>
    { path := path, success := false,
      errorMsg := some ("panic during image processing: ".data ++ m),
      isRaw := isRaw, isTif := isTif }

/-- Embeds the semaphore scope of one worker: acquisition raises the
occupancy, the deferred release lowers it again after the recovery
boundary has produced the file's result, whatever the outcome was. -/
def runWorkerInSlot (semOccupancy : Nat) (path : List Char) (isRaw isTif : Bool)
    (outcome : TaskOutcome) : ProcessImageResult × Nat :=
  let acquired := semOccupancy + 1
  let result := runTaskBoundary path isRaw isTif outcome
  (result, acquired - 1)

/-- Records the scheduler-dependent outcomes one file's task can see:
which of the three semaphore-acquisition attempts succeed, which of the
four buffer-send attempts succeed, whether the forwarder observes the
global stop signal before picking this result out of the buffer (the
outer select taking forwarderDone, scanner.go 276-280), whether it
observes the stop signal in the middle of this result's send ladder
(the inner select case, scanner.go 249-253), and which of the three
forwarder-send attempts succeed.  The two stop bits are this result's
view of the single close(forwarderDone) event issued at shutdown
(scanner.go 629) while results may still be buffered or in flight. -/
structure WorkerSchedule where
  semAttempts : List Bool
  bufferAttempts : List Bool
  stopBeforeForward : Bool
  stopDuringForward : Bool
  forwardAttempts : List Bool

/-- Embeds a bounded retry ladder: success when any of the first n tries
succeeds. -/
def anyAttemptSucceeds (attempts : List Bool) (n : Nat) : Bool :=
  (attempts.take n).any (fun b => b)

/-- Counts what the aggregator channel and the drop counters see after a
scan: delivered results, semaphoreAbandonments, bufferOverflows and
forwarder sendTimeouts. -/
structure DeliveryStats where
  delivered : Nat
  abandoned : Nat
  bufferDropped : Nat
  forwardDropped : Nat
deriving DecidableEq

/-- Embeds one file's journey through walkAndProcessFiles under a given
schedule: a worker that times out of all three semaphore attempts
abandons without producing a result, counted as an abandonment; a
result whose four buffer-send attempts all time out is dropped and
counted as a buffer overflow; a buffered result the forwarder never
picks up because the outer select takes the stop signal is discarded
with no counter touched; a result the inner select abandons mid-send on
the stop signal is likewise discarded with no counter touched, since
the sendTimeouts increment is guarded by forwarderRunning (scanner.go
260); a result whose three forward attempts all time out with the
forwarder still running is dropped and counted as a send timeout;
otherwise the result reaches the aggregator channel. -/
def deliverOneResult (st : DeliveryStats) (s : WorkerSchedule) : DeliveryStats :=
  if !anyAttemptSucceeds s.semAttempts 3 then { st with abandoned := st.abandoned + 1 }
  else if !anyAttemptSucceeds s.bufferAttempts 4 then
    { st with bufferDropped := st.bufferDropped + 1 }
  else if s.stopBeforeForward then st
  else if s.stopDuringForward then st
  else if !anyAttemptSucceeds s.forwardAttempts 3 then
    { st with forwardDropped := st.forwardDropped + 1 }
  else { st with delivered := st.delivered + 1 }

/-- Decides whether a file's result is lost to the forwarder shutdown:
it cleared the semaphore and the buffer send, and the stop signal then
removed it — from the buffer or mid-send — before any counter saw it. -/
def resultDiscardedAtShutdown (s : WorkerSchedule) : Bool :=
  anyAttemptSucceeds s.semAttempts 3 && anyAttemptSucceeds s.bufferAttempts 4 &&
    (s.stopBeforeForward || s.stopDuringForward)

/-- Runs a whole scan's worth of per-file deliveries. -/
def runScanDelivery (schedules : List WorkerSchedule) : DeliveryStats :=
  schedules.foldl deliverOneResult ⟨0, 0, 0, 0⟩

/-- Provides a small non-empty one-channel image for concrete runs. -/
def demoMat : Mat := ⟨1, 1, 1, fun _ _ => 0⟩

/-- Provides a zero-dimension image for concrete runs. -/
def emptyMat : Mat := ⟨0, 5, 1, fun _ _ => 0⟩

end ImageFinder

namespace ImageFinder

/-! ## Helper lemmas -/

/-- Shows boolean equality tests on char lists are symmetric. -/
theorem beqList_comm (a b : List Char) : (a == b) = (b == a) := by
  by_cases h : a = b
  · subst h; rfl
  · rw [beq_eq_false_iff_ne.mpr h, beq_eq_false_iff_ne.mpr (Ne.symm h)]

/-- Bounds the Hamming distance by the first hash's length. -/
theorem hammingDistance_le_left (h1 h2 : List Char) :
    CalculateHammingDistance h1 h2 ≤ h1.length := by
  unfold CalculateHammingDistance
  exact le_trans (List.length_filter_le _ _)
    (by rw [List.length_zip]; exact Nat.min_le_left _ _)

/-- Computes the length of a row-major grid listing. -/
theorem gridValues_length {α : Type} (r c : Nat) (f : Nat → Nat → α) :
    (gridValues r c f).length = r * c := by
  unfold gridValues
  induction r with
  | zero => simp
  | succ n ih =>
    rw [List.range_succ]
    simp only [List.map_append, List.map_cons, List.map_nil, List.flatten_append]
    simp only [List.length_append, ih]
    simp [Nat.succ_mul]

/-- Computes the number of packed bytes for bit lists of length a
multiple of eight. -/
theorem packBits_length_eight_mul :
    ∀ (k : Nat) (bs : List Bool), bs.length = 8 * k → (packBits bs).length = k := by
  intro k
  induction k with
  | zero =>
    intro bs h
    have hb : bs = [] := List.eq_nil_of_length_eq_zero (by omega)
    subst hb
    rfl
  | succ n ih =>
    intro bs h
    rcases bs with _ | ⟨b0, bs⟩
    · simp at h
    rcases bs with _ | ⟨b1, bs⟩
    · simp at h; omega
    rcases bs with _ | ⟨b2, bs⟩
    · simp at h; omega
    rcases bs with _ | ⟨b3, bs⟩
    · simp at h; omega
    rcases bs with _ | ⟨b4, bs⟩
    · simp at h; omega
    rcases bs with _ | ⟨b5, bs⟩
    · simp at h; omega
    rcases bs with _ | ⟨b6, bs⟩
    · simp at h; omega
    rcases bs with _ | ⟨b7, bs⟩
    · simp at h; omega
    simp only [packBits, List.length_cons]
    rw [ih bs (by simp at h; omega)]

/-- Computes the hex-string length: two characters per byte. -/
theorem bytesToHex_length (bs : List Nat) : (bytesToHex bs).length = 2 * bs.length := by
  induction bs with
  | nil => rfl
  | cons b bs ih =>
    simp only [bytesToHex, byteToHex, List.length_append, List.length_cons, ih,
      List.length_nil]
    omega

/-- Shows every hex digit character below sixteen lies in the alphabet. -/
theorem hexDigitChar_mem : ∀ n < 16, hexDigitChar n ∈ hexAlphabet := by decide

/-- Shows every character of a hex string lies in the hex alphabet. -/
theorem bytesToHex_mem (bs : List Nat) : ∀ ch ∈ bytesToHex bs, ch ∈ hexAlphabet := by
  induction bs with
  | nil => intro ch h; cases h
  | cons b bs ih =>
    intro ch h
    simp only [bytesToHex, byteToHex, List.cons_append, List.nil_append, List.mem_cons] at h
    rcases h with h | h | h
    · subst h; exact hexDigitChar_mem _ (Nat.mod_lt _ (by omega))
    · subst h; exact hexDigitChar_mem _ (Nat.mod_lt _ (by omega))
    · exact ih ch h

/-! ## Claim C10 -/

/-- Claim C10: the filename-relation predicate is symmetric: for all
paths p1 and p2, areFilenamesRelated p1 p2 = areFilenamesRelated p2 p1. -/
theorem filenames_related_symmetric (p1 p2 : List Char) :
    areFilenamesRelated p1 p2 = areFilenamesRelated p2 p1 := by
  simp only [areFilenamesRelated]
  rw [beqList_comm (getBaseFilename p1) (getBaseFilename p2),
    beqList_comm (extractDigits (getBaseFilename p1)) (extractDigits (getBaseFilename p2)),
    Bool.or_comm ((getBaseFilename p1).isPrefixOf (getBaseFilename p2)) _,
    Bool.and_comm (!(extractDigits (getBaseFilename p1) == []))
      (!(extractDigits (getBaseFilename p2) == []))]

/-! ## Claim C5 -/

/-- Claim C5, counterexample: the spec's substring-based relation calls
the pair xIMG.jpg and IMG.jpg related (IMG is a substring of xIMG, and
neither name has digits), but the source's prefix-based heuristic does
not, so the claimed characterisation fails at this input. -/
theorem substring_relation_rejected :
    areFilenamesRelatedSpec "xIMG.jpg".data "IMG.jpg".data = true ∧
    areFilenamesRelated "xIMG.jpg".data "IMG.jpg".data = false := by
  exact ⟨by decide, by decide⟩

/-- Claim C5, amended: two paths are related exactly when one base
filename (extension stripped) is a prefix of the other, or the digit
characters extracted from each agree and are non-empty.  The substring
test of the original claim is weakened to a prefix test. -/
theorem filenames_related_iff_prefix_or_digits (p1 p2 : List Char) :
    areFilenamesRelated p1 p2 = true ↔
      (getBaseFilename p1 <+: getBaseFilename p2 ∨
       getBaseFilename p2 <+: getBaseFilename p1 ∨
       (extractDigits (getBaseFilename p1) ≠ [] ∧
        extractDigits (getBaseFilename p1) = extractDigits (getBaseFilename p2))) := by
  simp only [areFilenamesRelated, Bool.or_eq_true, Bool.and_eq_true, beq_iff_eq,
    List.isPrefixOf_iff_prefix, Bool.not_eq_true', beq_eq_false_iff_ne, ne_eq]
  constructor
  · rintro ((h | h | h) | ⟨⟨h1, _⟩, h3⟩)
    · exact Or.inl (h ▸ List.prefix_refl _)
    · exact Or.inl h
    · exact Or.inr (Or.inl h)
    · exact Or.inr (Or.inr ⟨h1, h3⟩)
  · rintro (h | h | ⟨h1, h2⟩)
    · exact Or.inl (Or.inr (Or.inl h))
    · exact Or.inl (Or.inr (Or.inr h))
    · exact Or.inr ⟨⟨h1, fun hnil => h1 (h2.trans hnil)⟩, h2⟩

end ImageFinder

namespace ImageFinder

/-! ## Claim C3 -/

/-- Claim C3, counterexample: for the RAW query IMG_0042.CR2 against the
standard candidate IMG_0042.JPG — related base filenames, one RAW and
one standard — the source keeps the finite lenient bounds 20/25 instead
of disabling the check, and concrete hashes at Hamming distance 30 on
both channels do not proceed to verification, refuting the claimed
both-directions override. -/
theorem raw_query_filename_override_absent :
    isRawFormat "IMG_0042.CR2".data = true ∧
    isStandardFormat "IMG_0042.JPG".data = true ∧
    areFilenamesRelated "IMG_0042.CR2".data "IMG_0042.JPG".data = true ∧
    selectHashBounds "IMG_0042.CR2".data "IMG_0042.JPG".data ≠ ⟨64, 64⟩ ∧
    candidateProceeds "IMG_0042.CR2".data "IMG_0042.JPG".data
      (List.replicate 64 '0') (List.replicate 64 '0')
      (List.replicate 30 '1' ++ List.replicate 34 '0')
      (List.replicate 30 '1' ++ List.replicate 34 '0') = false := by
  refine ⟨by decide, by decide, by decide, by decide, by decide⟩

/-- Claim C3, amended: the override is one-directional.  When the query
is JPEG and the candidate is RAW and their base filenames are related,
both bounds become 64 — the maximum Hamming distance the 64-character
hashes can attain — so the candidate always proceeds to the verification
stage regardless of both hash distances. -/
theorem jpg_query_raw_candidate_always_verified
    (q c qa qp da dp : List Char)
    (hq : isJpgFormat q = true) (hc : isRawFormat c = true)
    (hrel : areFilenamesRelated q c = true)
    (hqa : qa.length ≤ 64) (_hqp : qp.length ≤ 64) :
    candidateProceeds q c qa qp da dp = true := by
  unfold candidateProceeds passesPrefilter selectHashBounds
  simp only [hq, hc, hrel, Bool.and_self, Bool.true_and, Bool.and_true, if_true]
  have h1 : CalculateHammingDistance qa da ≤ 64 :=
    le_trans (hammingDistance_le_left qa da) hqa
  simp [h1]

/-- Claim C3, witness: a JPEG query and RAW candidate with equal base
filenames proceed to verification even with hashes at the maximal
distance 64. -/
theorem jpg_query_raw_candidate_always_verified_witness :
    candidateProceeds "IMG_0042.JPG".data "IMG_0042.CR2".data
      (List.replicate 64 '0') (List.replicate 64 '0')
      (List.replicate 64 '1') (List.replicate 64 '1') = true :=
  jpg_query_raw_candidate_always_verified _ _ _ _ _ _
    (by decide) (by decide) (by decide) (by decide) (by decide)

/-! ## Claim C4 -/

/-- Claim C4, counterexample: the ComputeAverageHash implementation in
image_processing.go (the shape part_010 shares) maps a non-empty 1×1
image to a 64-character string over the characters one and zero, not to
16 hexadecimal characters. -/
theorem average_hash_binary_not_hex :
    (imageProcessingAverageHash demoMat).toOption.map List.length = some 64 ∧ (64 ≠ 16) := by
  exact ⟨by decide, by decide⟩

/-- Computes the hex-string length for a 64-bit hash. -/
theorem hexOfBits_length (bs : List Bool) (h : bs.length = 64) :
    (bytesToHex (packBits bs)).length = 16 := by
  rw [bytesToHex_length, packBits_length_eight_mul 8 bs (by omega)]

/-- Claim C4, amended: the hash_utils.go implementations of
ComputeAverageHash and ComputePerceptualHash return, for every non-empty
image of any dimensions, a string of exactly 16 characters drawn from
the hexadecimal alphabet; the image_processing.go and part_010
implementations return 64-character binary strings instead. -/
theorem hash_utils_sixteen_hex_chars (img : Mat) (h : matEmpty img = false) :
    ∃ ha hp, hashUtilsAverageHash img = .ok ha ∧ hashUtilsPerceptualHash img = .ok hp ∧
      ha.length = 16 ∧ hp.length = 16 ∧
      (∀ ch ∈ ha, ch ∈ hexAlphabet) ∧ (∀ ch ∈ hp, ch ∈ hexAlphabet) := by
  simp only [hashUtilsAverageHash, hashUtilsPerceptualHash, h, Bool.false_eq_true,
    if_false]
  refine ⟨_, _, rfl, rfl, ?_, ?_, bytesToHex_mem _, bytesToHex_mem _⟩
  · apply hexOfBits_length
    rw [List.length_map, gridValues_length]
    by_cases hc : img.channels ≠ 1 <;> simp [hc, cvtColorGray, gocvResize]
  · apply hexOfBits_length
    rw [List.length_map, gridValues_length]
    rfl

/-- Claim C4, witness: the amended statement instantiated at a concrete
non-empty 1×1 image. -/
theorem hash_utils_sixteen_hex_chars_witness :
    matEmpty demoMat = false ∧
    (∃ ha hp, hashUtilsAverageHash demoMat = .ok ha ∧
      hashUtilsPerceptualHash demoMat = .ok hp ∧ ha.length = 16 ∧ hp.length = 16 ∧
      (∀ ch ∈ ha, ch ∈ hexAlphabet) ∧ (∀ ch ∈ hp, ch ∈ hexAlphabet)) :=
  ⟨by decide, hash_utils_sixteen_hex_chars demoMat (by decide)⟩

/-! ## Claim C9 -/

/-- Claim C9: the hash_utils.go hash functions fail exactly on empty or
zero-dimension images and succeed on every non-empty image, while
ComputeSSIM returns zero, without failing, whenever either input is
empty or zero-dimension. -/
theorem hash_empty_error_ssim_zero (img img2 : Mat) :
    (hashUtilsAverageHash img).isOk = !matEmpty img ∧
    (hashUtilsPerceptualHash img).isOk = !matEmpty img ∧
    (matEmpty img = true → ComputeSSIM img img2 = 0 ∧ ComputeSSIM img2 img = 0) := by
  refine ⟨?_, ?_, ?_⟩
  · by_cases h : matEmpty img <;> simp [hashUtilsAverageHash, h, Except.isOk, Except.toBool]
  · by_cases h : matEmpty img <;> simp [hashUtilsPerceptualHash, h, Except.isOk, Except.toBool]
  · intro h
    constructor <;> simp [ComputeSSIM, h]

/-- Claim C9, witness: instantiated at a zero-row image and a non-empty
image. -/
theorem hash_empty_error_ssim_zero_witness :
    matEmpty emptyMat = true ∧
    ComputeSSIM emptyMat demoMat = 0 ∧ ComputeSSIM demoMat emptyMat = 0 :=
  ⟨by decide, (hash_empty_error_ssim_zero emptyMat demoMat).2.2 (by decide)⟩

end ImageFinder

namespace ImageFinder

/-! ## Claim C7 -/

/-- Claim C7, counterexample: a PNG query (standard format, not RAW)
with a RAW candidate is exactly one RAW and one standard, but the
verification threshold stays at the caller's value — the source reduces
it only for JPEG, not for every standard format — so the pixel score
0.78 is rejected at nominal threshold 0.8 instead of being accepted
against 0.64. -/
theorem png_raw_threshold_not_reduced :
    isStandardFormat "a.png".data = true ∧ isRawFormat "a.png".data = false ∧
    isRawFormat "b.cr2".data = true ∧ isStandardFormat "b.cr2".data = false ∧
    effectiveThreshold (4/5) "a.png".data "b.cr2".data = 4/5 ∧
    verifyCandidate (4/5) "a.png".data "b.cr2".data ⟨true, true, 39/50⟩ = none := by
  have h : ((isRawFormat "a.png".data && isJpgFormat "b.cr2".data) ||
      (isJpgFormat "a.png".data && isRawFormat "b.cr2".data)) = false := by decide
  refine ⟨by decide, by decide, by decide, by decide, ?_, ?_⟩
  · simp [effectiveThreshold, h]
  · norm_num [verifyCandidate, effectiveThreshold, h]

/-- Claim C7, amended: a candidate that reaches the verification stage
(file present, image loads) is accepted exactly when its pixel score
reaches the effective threshold, and the effective threshold is the
caller's threshold times 0.8 precisely when one side is RAW and the
other is JPEG (.jpg or .jpeg) — other standard formats such as PNG or
TIFF keep the unchanged threshold against a RAW peer. -/
theorem verification_acceptance_threshold (t s : Rat) (q c : List Char) :
    (((isRawFormat q && isJpgFormat c) || (isJpgFormat q && isRawFormat c)) = true →
      (verifyCandidate t q c ⟨true, true, s⟩ = some s ↔ t * (4/5) ≤ s)) ∧
    (((isRawFormat q && isJpgFormat c) || (isJpgFormat q && isRawFormat c)) = false →
      (verifyCandidate t q c ⟨true, true, s⟩ = some s ↔ t ≤ s)) := by
  constructor <;> intro h
  · by_cases hle : t * (4/5) ≤ s <;> simp [verifyCandidate, effectiveThreshold, h, hle]
  · by_cases hle : t ≤ s <;> simp [verifyCandidate, effectiveThreshold, h, hle]

/-- Claim C7, witness: a JPEG query with a RAW candidate at caller
threshold 0.8 accepts a pixel score of 0.78 through the reduced
effective threshold 0.64. -/
theorem verification_acceptance_threshold_witness :
    verifyCandidate (4/5) "a.jpg".data "b.cr2".data ⟨true, true, 39/50⟩ = some (39/50) :=
  ((verification_acceptance_threshold (4/5) (39/50) "a.jpg".data "b.cr2".data).1
    (by decide)).mpr (by norm_num)

/-! ## Claim C6 -/

/-- Claim C6: with force-rewrite off and a stored record at the file's
key carrying modification time T, a file whose own modification time is
exactly T resolves to a successful skip — the store and the decode
stage are untouched — while a file stamped strictly later than T passes
the skip check and enters the decode path, whatever the decode then
yields. -/
theorem skip_boundary_equal_skips_newer_reprocesses
    (db : ImageDB) (path pfx fmt : List Char) (r : ImageRecord) (sz now : Int)
    (dec : Except Unit Mat) (hfind : dbFind db path pfx = some r) :
    processAndStoreImage db path ⟨false, pfx⟩ (.ok ⟨r.modifiedAt, sz⟩) dec fmt now =
      ({ path := path, success := true, errorMsg := none }, db, false) ∧
    (processAndStoreImage db path ⟨false, pfx⟩ (.ok ⟨r.modifiedAt + 1, sz⟩) dec fmt now).2.2 =
      true := by
  constructor
  · simp [processAndStoreImage, checkAndSkipIfUnchanged, hfind, Except.map]
  · have hlt : ¬ (r.modifiedAt + 1 ≤ r.modifiedAt) := by omega
    rcases dec with e | img
    · simp [processAndStoreImage, checkAndSkipIfUnchanged, hfind, Except.map, hlt]
    · by_cases he : matEmpty img
      · simp [processAndStoreImage, checkAndSkipIfUnchanged, hfind, Except.map, hlt, he]
      · rcases hav : hashUtilsAverageHash img with e | ah
        · simp [processAndStoreImage, checkAndSkipIfUnchanged, hfind, Except.map, hlt, he, hav]
        · rcases hph : hashUtilsPerceptualHash img with e | ph <;>
            simp [processAndStoreImage, checkAndSkipIfUnchanged, hfind, Except.map, hlt,
              he, hav, hph]

/-- Provides a concrete stored record for instantiating the skip
boundary. -/
def demoStoredRecord : ImageRecord :=
  { path := "/p/a.jpg".data, srcPfx := "s".data, format := "jpg".data,
    width := 2, height := 2, createdAt := 50, modifiedAt := 100, size := 5,
    averageHash := "aa".data, perceptualHash := "bb".data }

/-- Claim C6, witness: the boundary instantiated on a one-record store
with stored time 100, file time 100, and a failing decoder. -/
theorem skip_boundary_equal_skips_newer_reprocesses_witness :
    processAndStoreImage [demoStoredRecord] "/p/a.jpg".data ⟨false, "s".data⟩
        (.ok ⟨demoStoredRecord.modifiedAt, 5⟩) (.error ()) "jpg".data 7 =
      ({ path := "/p/a.jpg".data, success := true, errorMsg := none },
        [demoStoredRecord], false) :=
  (skip_boundary_equal_skips_newer_reprocesses [demoStoredRecord] "/p/a.jpg".data
    "s".data "jpg".data demoStoredRecord 5 7 (.error ()) (by decide)).1

/-! ## Claim C8 -/

/-- Claim C8: a runtime fault inside a file's processing is caught at
the task boundary and becomes a failed result for that same file with
the panic recorded as its error, the scan itself continues (the worker
returns a result rather than propagating), and the semaphore slot is
released — occupancy returns to its pre-task value — for faulting and
normal outcomes alike. -/
theorem fault_contained_and_slot_released (sem : Nat) (path msg : List Char)
    (isRaw isTif : Bool) (outcome : TaskOutcome) :
    ((runWorkerInSlot sem path isRaw isTif (.fault msg)).1.success = false ∧
     (runWorkerInSlot sem path isRaw isTif (.fault msg)).1.errorMsg.isSome = true ∧
     (runWorkerInSlot sem path isRaw isTif (.fault msg)).1.path = path) ∧
    (runWorkerInSlot sem path isRaw isTif outcome).2 = sem := by
  refine ⟨⟨rfl, rfl, rfl⟩, ?_⟩
  simp [runWorkerInSlot]

/-! ## Claim C2 -/

/-- Claim C2, counterexample: a scan of one file whose result clears
the semaphore and the buffer on the first try, after which the
forwarder takes the stop signal instead of the buffered result,
delivers zero results to the aggregator while every statistic —
abandonments, buffer overflows, forwarder timeouts — reads zero: the
result is lost silently, refuting both that exactly N results arrive
and that no result is ever silently lost.  A second one-file schedule
whose four buffer-send attempts all time out shows the counted drop
path losing a result as well. -/
theorem scan_result_drop_possible :
    runScanDelivery [⟨[true], [true], true, false, []⟩] =
      { delivered := 0, abandoned := 0, bufferDropped := 0, forwardDropped := 0 } ∧
    runScanDelivery [⟨[true], [false, false, false, false], false, false, [true]⟩] =
      { delivered := 0, abandoned := 0, bufferDropped := 1, forwardDropped := 0 } ∧
    [(⟨[true], [true], true, false, []⟩ : WorkerSchedule)].length = 1 := by
  exact ⟨by decide, by decide, by decide⟩

/-- Counts a delivery run from an arbitrary starting tally, accounting
the uncounted shutdown discards on the side. -/
theorem deliverOneResult_conservation (ss : List WorkerSchedule) (st : DeliveryStats) :
    (ss.foldl deliverOneResult st).delivered + (ss.foldl deliverOneResult st).abandoned +
      (ss.foldl deliverOneResult st).bufferDropped +
      (ss.foldl deliverOneResult st).forwardDropped +
      ss.countP (fun s => resultDiscardedAtShutdown s) =
    st.delivered + st.abandoned + st.bufferDropped + st.forwardDropped + ss.length := by
  induction ss generalizing st with
  | nil => simp
  | cons s ss ih =>
    simp only [List.foldl_cons, List.length_cons, List.countP_cons]
    have h := ih (deliverOneResult st s)
    by_cases h1 : anyAttemptSucceeds s.semAttempts 3 <;>
      by_cases h2 : anyAttemptSucceeds s.bufferAttempts 4 <;>
      by_cases h3 : s.stopBeforeForward <;>
      by_cases h4 : s.stopDuringForward <;>
      by_cases h5 : anyAttemptSucceeds s.forwardAttempts 3 <;>
      simp [deliverOneResult, resultDiscardedAtShutdown, h1, h2, h3, h4, h5] at h ⊢ <;>
      omega

/-- Claim C2, amended: every one of the N files meets exactly one of
five fates — delivery to the aggregator, counted semaphore abandonment,
counted buffer-overflow drop, counted forwarder-timeout drop, or a
discard at forwarder shutdown that no statistic records — so the four
program counters plus the shutdown discards sum to N.  Delivered
results can therefore fall short of N, and in the shutdown case the
loss is silent: every counter stays untouched while the result never
arrives. -/
theorem scan_result_conservation (ss : List WorkerSchedule) :
    (runScanDelivery ss).delivered + (runScanDelivery ss).abandoned +
      (runScanDelivery ss).bufferDropped + (runScanDelivery ss).forwardDropped +
      ss.countP (fun s => resultDiscardedAtShutdown s) = ss.length := by
  have h := deliverOneResult_conservation ss ⟨0, 0, 0, 0⟩
  simpa [runScanDelivery] using h

end ImageFinder

namespace ImageFinder

/-! ## Claim C1 -/

/-- Provides the stored record for the stale-update run: indexed at
modification time 100 with the hashes computed back then. -/
def staleRecord : ImageRecord :=
  { path := "/photos/a.jpg".data, srcPfx := "drive1".data, format := "jpg".data,
    width := 3, height := 3, createdAt := 50, modifiedAt := 100, size := 9,
    averageHash := "00ff00ff00ff00ff".data, perceptualHash := "11aa11aa11aa11aa".data }

/-- Claim C1: with force-rewrite off and the on-disk file stamped 101,
strictly newer than the stored 100, the scan passes the skip check,
re-enters the decode path (third component true) and reports success —
yet the non-force store write is INSERT OR IGNORE, so the stored record
survives completely unchanged: its hashes and modifiedAt stay the old
values instead of the ones computed from the current content.  This
run evaluates the code at the claim's scenario and exhibits the
divergence. -/
theorem scan_newer_file_leaves_record_stale :
    processAndStoreImage [staleRecord] "/photos/a.jpg".data ⟨false, "drive1".data⟩
        (.ok ⟨101, 9⟩) (.ok demoMat) "jpg".data 999 =
      ({ path := "/photos/a.jpg".data, success := true, errorMsg := none },
        [staleRecord], true) ∧
    staleRecord.modifiedAt = 100 := by
  exact ⟨by decide, by decide⟩

end ImageFinder
